import Mathlib

/-!
# Verification of an ink! ERC-20 token ledger

Shallow embedding of `src/lib.rs` (module `erc20`): the storage struct
`Erc20` with its `balances` and `allowances` hash maps and `total_supply`
scalar, the constructor `new`, and the messages `total_supply`,
`balance_of`, `allowance`, `approve`, `transfer`, `transfer_from`, together
with the private helpers `balance_of_or_zero`, `allowance_of_or_zero` and
`transfer_from_to`.

Modelling choices:
* `AccountId` is opaque (equality only), modelled as `Nat`.
* `Balance` is `u128`; amounts are `Nat`, and the one unchecked machine
  addition in the source (`to_balance + value` in `transfer_from_to`,
  line 128) is embedded with an explicit `% 2 ^ 128`, matching wrapping
  `u128` arithmetic.  The source's subtractions are guarded by comparisons
  before they run, so `Nat` subtraction coincides with `u128` subtraction
  there (proved below, claim on guarded subtractions).
* `ink_storage::collections::HashMap` is embedded as an association list
  with overwrite-on-insert and `Option`-returning lookup.
* The ambient caller (`self.env().caller()`) is threaded as an explicit
  argument; event emission (`self.env().emit_event`) is returned as a list
  of `Event`s alongside the result and post-state.
-/

namespace Erc20Spec

/-- `Balance` in ink is `u128`; its modulus. -/
def U128 : Nat := 2 ^ 128

/-- Opaque account identifier (`AccountId` in ink): equality only. -/
abbrev AccountId := Nat

/-- `HashMap::get`: first binding of the key, if any. -/
def hmGet {α : Type} [DecidableEq α] (m : List (α × Nat)) (k : α) : Option Nat :=
  match m with
  | [] => none
  | (k0, v0) :: rest => if k0 = k then some v0 else hmGet rest k

/-- `HashMap::insert`: overwrite the binding of `k` (or append it). -/
def hmInsert {α : Type} [DecidableEq α] (m : List (α × Nat)) (k : α) (v : Nat) :
    List (α × Nat) :=
  match m with
  | [] => [(k, v)]
  | (k0, v0) :: rest => if k0 = k then (k, v) :: rest else (k0, v0) :: hmInsert rest k v

/-- Lookup with a zero default (`*... .get(..).unwrap_or(&0)`). -/
def hmGetD {α : Type} [DecidableEq α] (m : List (α × Nat)) (k : α) : Nat :=
  (hmGet m k).getD 0

/-- Sum of all stored values of the map. -/
def hmSum {α : Type} (m : List (α × Nat)) : Nat :=
  (m.map Prod.snd).sum

/-- The contract storage (`struct Erc20`, src/lib.rs lines 11-19). -/
structure Erc20 where
  total_supply : Nat
  balances : List (AccountId × Nat)
  allowances : List ((AccountId × AccountId) × Nat)
deriving DecidableEq, Repr

/-- The two ink events of the contract (src/lib.rs lines 21-39). -/
inductive Event where
  | Transfer : Option AccountId → Option AccountId → Nat → Event
  | Approval : AccountId → AccountId → Nat → Event
deriving DecidableEq, Repr

/-- Constructor `new` (src/lib.rs lines 44-60): single balance entry for the
caller, empty allowances, and a minting `Transfer` event. -/
def new (caller : AccountId) (inital_supply : Nat) : Erc20 × List Event :=
  ({ total_supply := inital_supply
     balances := hmInsert [] caller inital_supply
     allowances := [] },
   [Event.Transfer none (some caller) inital_supply])

/-- Message `total_supply` (src/lib.rs lines 63-65). -/
def total_supply (s : Erc20) : Nat :=
  s.total_supply

/-- Helper `balance_of_or_zero` (src/lib.rs lines 114-116). -/
def balance_of_or_zero (s : Erc20) (owner : AccountId) : Nat :=
  hmGetD s.balances owner

/-- Message `balance_of` (src/lib.rs lines 68-70). -/
def balance_of (s : Erc20) (owner : AccountId) : Nat :=
  balance_of_or_zero s owner

/-- Helper `allowance_of_or_zero` (src/lib.rs lines 138-140). -/
def allowance_of_or_zero (s : Erc20) (owner spender : AccountId) : Nat :=
  hmGetD s.allowances (owner, spender)

/-- Message `allowance` (src/lib.rs lines 92-94). -/
def allowance (s : Erc20) (owner spender : AccountId) : Nat :=
  allowance_of_or_zero s owner spender

/-- Private transfer primitive `transfer_from_to` (src/lib.rs lines
118-136).  The recipient-side addition is the source's unchecked `u128`
addition, embedded as `% U128`. -/
def transfer_from_to (s : Erc20) (from_ to_ : AccountId) (value : Nat) :
    Bool × Erc20 × List Event :=
  let from_balance := balance_of_or_zero s from_
  if from_balance < value then
    (false, s, [])
  else
    let s1 : Erc20 := { s with balances := hmInsert s.balances from_ (from_balance - value) }
    let to_balance := balance_of_or_zero s1 to_
    let s2 : Erc20 := { s1 with balances := hmInsert s1.balances to_ ((to_balance + value) % U128) }
    (true, s2, [Event.Transfer (some from_) (some to_) value])

/-- Message `transfer` (src/lib.rs lines 73-76): the primitive with
`from = caller`. -/
def transfer (s : Erc20) (caller to_ : AccountId) (value : Nat) :
    Bool × Erc20 × List Event :=
  transfer_from_to s caller to_ value

/-- Message `approve` (src/lib.rs lines 79-89): overwrite the allowance,
emit `Approval`, return `true`. -/
def approve (s : Erc20) (caller spender : AccountId) (value : Nat) :
    Bool × Erc20 × List Event :=
  (true,
   { s with allowances := hmInsert s.allowances (caller, spender) value },
   [Event.Approval caller spender value])

/-- Message `transfer_from` (src/lib.rs lines 97-112): allowance check,
then the primitive, then allowance decrement. -/
def transfer_from (s : Erc20) (caller from_ to_ : AccountId) (value : Nat) :
    Bool × Erc20 × List Event :=
  let allowance := allowance_of_or_zero s from_ caller
  if allowance < value then
    (false, s, [])
  else
    let r := transfer_from_to s from_ to_ value
    if !r.1 then
      (false, r.2.1, r.2.2)
    else
      (true,
       { r.2.1 with allowances := hmInsert r.2.1.allowances (from_, caller) (allowance - value) },
       r.2.2)

/-- Ledger states reachable from construction by the contract's mutating
messages (with arbitrary callers and arguments; `inital_supply` is a
`u128`, hence below `U128`). -/
inductive Reachable : Erc20 → Prop where
  | init (caller : AccountId) (inital_supply : Nat) (h : inital_supply < U128) :
      Reachable (new caller inital_supply).1
  | step_approve (s : Erc20) (hs : Reachable s) (caller spender : AccountId) (value : Nat) :
      Reachable (approve s caller spender value).2.1
  | step_transfer (s : Erc20) (hs : Reachable s) (caller to_ : AccountId) (value : Nat) :
      Reachable (transfer s caller to_ value).2.1
  | step_transfer_from (s : Erc20) (hs : Reachable s)
      (caller from_ to_ : AccountId) (value : Nat) :
      Reachable (transfer_from s caller from_ to_ value).2.1

/-- Well-typed storage: every stored balance fits in a `u128`, as the Rust
types force. -/
def WF (s : Erc20) : Prop :=
  ∀ k v, hmGet s.balances k = some v → v < U128

/-- Inductive invariant: the stored balances sum to `total_supply`, and the
supply fits in a `u128` (as its Rust type guarantees). -/
def Inv (s : Erc20) : Prop :=
  hmSum s.balances = s.total_supply ∧ s.total_supply < U128


/-! ## Association-list map lemmas -/

theorem hmGet_hmInsert_self {α : Type} [DecidableEq α]
    (m : List (α × Nat)) (k : α) (v : Nat) :
    hmGet (hmInsert m k v) k = some v := by
  induction m with
  | nil => simp [hmGet, hmInsert]
  | cons p rest ih =>
    obtain ⟨k0, v0⟩ := p
    by_cases h : k0 = k
    · simp [hmGet, hmInsert, h]
    · simp [hmGet, hmInsert, h, ih]

theorem hmGet_hmInsert_ne {α : Type} [DecidableEq α]
    (m : List (α × Nat)) (k k1 : α) (v : Nat) (hne : k1 ≠ k) :
    hmGet (hmInsert m k v) k1 = hmGet m k1 := by
  induction m with
  | nil => simp [hmGet, hmInsert, Ne.symm hne]
  | cons p rest ih =>
    obtain ⟨k0, v0⟩ := p
    by_cases h : k0 = k
    · subst h
      simp [hmGet, hmInsert, Ne.symm hne]
    · simp only [hmInsert, h, if_false]
      by_cases h1 : k0 = k1 <;> simp [hmGet, h1, ih]

theorem hmGetD_le_hmSum {α : Type} [DecidableEq α] (m : List (α × Nat)) (k : α) :
    hmGetD m k ≤ hmSum m := by
  induction m with
  | nil => simp [hmGetD, hmGet, hmSum]
  | cons p rest ih =>
    obtain ⟨k0, v0⟩ := p
    by_cases h : k0 = k
    · simp [hmGetD, hmGet, hmSum, h]
    · simp only [hmGetD, hmGet, hmSum, h, if_false, List.map_cons, List.sum_cons]
      exact le_add_left (ih)

theorem hmSum_hmInsert {α : Type} [DecidableEq α]
    (m : List (α × Nat)) (k : α) (v : Nat) :
    hmSum (hmInsert m k v) + hmGetD m k = hmSum m + v := by
  induction m with
  | nil => simp [hmSum, hmInsert, hmGetD, hmGet]
  | cons p rest ih =>
    obtain ⟨k0, v0⟩ := p
    by_cases h : k0 = k
    · simp [hmSum, hmInsert, hmGetD, hmGet, h]
      ring
    · simp only [hmSum, hmInsert, hmGetD, hmGet, h, if_false, List.map_cons, List.sum_cons]
      simp only [hmSum, hmGetD] at ih
      omega

/-! ## The supply-conservation invariant -/

theorem inv_new (caller : AccountId) (inital_supply : Nat)
    (h : inital_supply < U128) : Inv (new caller inital_supply).1 := by
  constructor
  · simp [new, hmSum, hmInsert]
  · exact h

theorem inv_approve (s : Erc20) (caller spender : AccountId) (value : Nat)
    (h : Inv s) : Inv (approve s caller spender value).2.1 := by
  simpa [approve, Inv] using h

theorem inv_transfer_from_to (s : Erc20) (f t v : Nat) (h : Inv s) :
    Inv (transfer_from_to s f t v).2.1 := by
  unfold transfer_from_to
  by_cases hlt : balance_of_or_zero s f < v
  · simpa [hlt] using h
  · simp only [hlt, if_false]
    obtain ⟨hs, hu⟩ := h
    simp only [balance_of_or_zero] at hlt
    have hb : hmGetD s.balances f ≤ hmSum s.balances := hmGetD_le_hmSum _ _
    have h1 := hmSum_hmInsert s.balances f (hmGetD s.balances f - v)
    have ht := hmGetD_le_hmSum (hmInsert s.balances f (hmGetD s.balances f - v)) t
    have hmod : (hmGetD (hmInsert s.balances f (hmGetD s.balances f - v)) t + v) % U128
        = hmGetD (hmInsert s.balances f (hmGetD s.balances f - v)) t + v :=
      Nat.mod_eq_of_lt (by omega)
    have h2 := hmSum_hmInsert (hmInsert s.balances f (hmGetD s.balances f - v)) t
      ((hmGetD (hmInsert s.balances f (hmGetD s.balances f - v)) t + v) % U128)
    simp only [Inv, balance_of_or_zero]
    refine ⟨?_, hu⟩
    omega

theorem inv_transfer (s : Erc20) (caller t v : Nat) (h : Inv s) :
    Inv (transfer s caller t v).2.1 :=
  inv_transfer_from_to s caller t v h

theorem inv_transfer_from (s : Erc20) (caller f t v : Nat) (h : Inv s) :
    Inv (transfer_from s caller f t v).2.1 := by
  unfold transfer_from
  by_cases h1 : allowance_of_or_zero s f caller < v
  · simpa [h1] using h
  · simp only [h1, if_false]
    have h2 := inv_transfer_from_to s f t v h
    by_cases h3 : (transfer_from_to s f t v).1
    · simpa [Inv, h3] using h2
    · simpa [Inv, h3] using h2

theorem reachable_inv (s : Erc20) (h : Reachable s) : Inv s := by
  induction h with
  | init caller inital_supply h => exact inv_new caller inital_supply h
  | step_approve s hs caller spender value ih => exact inv_approve s caller spender value ih
  | step_transfer s hs caller t v ih => exact inv_transfer s caller t v ih
  | step_transfer_from s hs caller f t v ih => exact inv_transfer_from s caller f t v ih

/-! ## Shape lemmas for the operations -/

theorem hmGetD_hmInsert_self {α : Type} [DecidableEq α]
    (m : List (α × Nat)) (k : α) (v : Nat) :
    hmGetD (hmInsert m k v) k = v := by
  simp [hmGetD, hmGet_hmInsert_self]

theorem hmGetD_hmInsert_ne {α : Type} [DecidableEq α]
    (m : List (α × Nat)) (k k1 : α) (v : Nat) (hne : k1 ≠ k) :
    hmGetD (hmInsert m k v) k1 = hmGetD m k1 := by
  simp [hmGetD, hmGet_hmInsert_ne m k k1 v hne]

theorem hmGet_le_hmSum {α : Type} [DecidableEq α]
    (m : List (α × Nat)) (k : α) (v : Nat) (h : hmGet m k = some v) :
    v ≤ hmSum m := by
  have := hmGetD_le_hmSum m k
  simpa [hmGetD, h] using this

theorem tft_fail (s : Erc20) (f t v : Nat) (h : balance_of_or_zero s f < v) :
    transfer_from_to s f t v = (false, s, []) := by
  unfold transfer_from_to
  simp [h]

theorem tft_succ (s : Erc20) (f t v : Nat) (h : ¬ balance_of_or_zero s f < v) :
    transfer_from_to s f t v =
      (true,
       { s with balances :=
          (hmInsert (hmInsert s.balances f (balance_of_or_zero s f - v)) t
            ((hmGetD (hmInsert s.balances f (balance_of_or_zero s f - v)) t + v) % U128)) },
       [Event.Transfer (some f) (some t) v]) := by
  unfold transfer_from_to
  simp only [balance_of_or_zero] at h ⊢
  simp [h]

theorem tft_fst_iff (s : Erc20) (f t v : Nat) :
    (transfer_from_to s f t v).1 = true ↔ v ≤ balance_of_or_zero s f := by
  by_cases h : balance_of_or_zero s f < v
  · simp [tft_fail s f t v h]
    omega
  · simp [tft_succ s f t v h]
    omega

theorem tft_allowances (s : Erc20) (f t v : Nat) :
    (transfer_from_to s f t v).2.1.allowances = s.allowances := by
  by_cases h : balance_of_or_zero s f < v
  · simp [tft_fail s f t v h]
  · simp [tft_succ s f t v h]

theorem tft_total_supply (s : Erc20) (f t v : Nat) :
    (transfer_from_to s f t v).2.1.total_supply = s.total_supply := by
  by_cases h : balance_of_or_zero s f < v
  · simp [tft_fail s f t v h]
  · simp [tft_succ s f t v h]

theorem transfer_from_allowance_lt (s : Erc20) (c f t v : Nat)
    (h : allowance_of_or_zero s f c < v) :
    transfer_from s c f t v = (false, s, []) := by
  unfold transfer_from
  simp [h]

theorem transfer_from_balance_lt (s : Erc20) (c f t v : Nat)
    (h1 : ¬ allowance_of_or_zero s f c < v) (h2 : balance_of_or_zero s f < v) :
    transfer_from s c f t v = (false, s, []) := by
  unfold transfer_from
  simp [h1, tft_fail s f t v h2]

theorem transfer_from_succ (s : Erc20) (c f t v : Nat)
    (h1 : ¬ allowance_of_or_zero s f c < v) (h2 : ¬ balance_of_or_zero s f < v) :
    transfer_from s c f t v =
      (true,
       { (transfer_from_to s f t v).2.1 with allowances :=
          (hmInsert (transfer_from_to s f t v).2.1.allowances (f, c)
            (allowance_of_or_zero s f c - v)) },
       (transfer_from_to s f t v).2.2) := by
  unfold transfer_from
  have hb : (transfer_from_to s f t v).1 = true := (tft_fst_iff s f t v).mpr (by omega)
  simp [h1, hb]

theorem ts_approve (s : Erc20) (c sp v : Nat) :
    (approve s c sp v).2.1.total_supply = s.total_supply := rfl

theorem ts_transfer (s : Erc20) (c t v : Nat) :
    (transfer s c t v).2.1.total_supply = s.total_supply :=
  tft_total_supply s c t v

theorem ts_transfer_from (s : Erc20) (c f t v : Nat) :
    (transfer_from s c f t v).2.1.total_supply = s.total_supply := by
  by_cases h1 : allowance_of_or_zero s f c < v
  · simp [transfer_from_allowance_lt s c f t v h1]
  · by_cases h2 : balance_of_or_zero s f < v
    · simp [transfer_from_balance_lt s c f t v h1 h2]
    · simp [transfer_from_succ s c f t v h1 h2, tft_total_supply]

/-- Every stored balance of an invariant-satisfying state fits in `u128`. -/
theorem inv_wf (s : Erc20) (h : Inv s) : WF s := by
  obtain ⟨hs, hu⟩ := h
  intro k v hg
  have h1 := hmGet_le_hmSum s.balances k v hg
  omega

theorem wf_balance_lt (s : Erc20) (h : WF s) (k : AccountId) :
    balance_of_or_zero s k < U128 := by
  simp only [balance_of_or_zero, hmGetD]
  cases hg : hmGet s.balances k with
  | none => norm_num [U128]
  | some v => simpa using h k v hg

/-! ## Claim C1: supply conservation -/

/-- Claim C1: in every reachable ledger state the sum of all stored
balances equals `total_supply`, and none of the mutating operations
(`approve`, `transfer`, `transfer_from`) changes that sum. -/
theorem supply_conservation (s : Erc20) (h : Reachable s) :
    hmSum s.balances = total_supply s
    ∧ (∀ caller spender value,
        hmSum (approve s caller spender value).2.1.balances = hmSum s.balances)
    ∧ (∀ caller to_ value,
        hmSum (transfer s caller to_ value).2.1.balances = hmSum s.balances)
    ∧ (∀ caller from_ to_ value,
        hmSum (transfer_from s caller from_ to_ value).2.1.balances = hmSum s.balances) := by
  have hi := reachable_inv s h
  refine ⟨hi.1, ?_, ?_, ?_⟩
  · intro c sp v
    simp [approve]
  · intro c t v
    have h2 := inv_transfer s c t v hi
    have h3 := ts_transfer s c t v
    exact h2.1.trans (h3.trans hi.1.symm)
  · intro c f t v
    have h2 := inv_transfer_from s c f t v hi
    have h3 := ts_transfer_from s c f t v
    exact h2.1.trans (h3.trans hi.1.symm)

/-- Witness for claim C1 at the concrete reachable state obtained by
constructing with supply 100 and transferring 10. -/
theorem supply_conservation_witness :
    hmSum (transfer (new 1 100).1 1 0 10).2.1.balances
      = total_supply (transfer (new 1 100).1 1 0 10).2.1 :=
  (supply_conservation (transfer (new 1 100).1 1 0 10).2.1
    (Reachable.step_transfer (new 1 100).1 (Reachable.init 1 100 (by decide)) 1 0 10)).1

/-! ## Claim C2: failure atomicity -/

/-- Claim C2: whenever `transfer` or `transfer_from` returns `false`, the
whole post-state (balances, allowances and `total_supply`) equals the
pre-state. -/
theorem failure_atomicity (s : Erc20) (caller from_ to_ : AccountId) (value : Nat) :
    ((transfer s caller to_ value).1 = false → (transfer s caller to_ value).2.1 = s)
    ∧ ((transfer_from s caller from_ to_ value).1 = false →
        (transfer_from s caller from_ to_ value).2.1 = s) := by
  constructor
  · intro hf
    simp only [transfer] at hf ⊢
    by_cases h : balance_of_or_zero s caller < value
    · simp [tft_fail s caller to_ value h]
    · rw [(tft_fst_iff s caller to_ value).mpr (by omega)] at hf
      simp at hf
  · intro hf
    by_cases h1 : allowance_of_or_zero s from_ caller < value
    · simp [transfer_from_allowance_lt s caller from_ to_ value h1]
    · by_cases h2 : balance_of_or_zero s from_ < value
      · simp [transfer_from_balance_lt s caller from_ to_ value h1 h2]
      · rw [transfer_from_succ s caller from_ to_ value h1 h2] at hf
        simp at hf

/-- Witness for claim C2: a transfer with insufficient balance and a
delegated transfer with insufficient allowance both leave the state as it
was. -/
theorem failure_atomicity_witness :
    (transfer (new 1 100).1 1 0 200).2.1 = (new 1 100).1
    ∧ (transfer_from (new 1 100).1 1 1 0 200).2.1 = (new 1 100).1 :=
  ⟨(failure_atomicity (new 1 100).1 1 1 0 200).1 (by decide),
   (failure_atomicity (new 1 100).1 1 1 0 200).2 (by decide)⟩

/-! ## Claim C3: transfer_from semantics -/

/-- Claim C3: `transfer_from` fails with no state change when the
`(from, caller)` allowance is below `value`; it succeeds exactly when both
the allowance check and the balance check pass; and on success the
`(from, caller)` allowance decreases by exactly `value`. -/
theorem transfer_from_semantics (s : Erc20) (caller from_ to_ : AccountId) (value : Nat) :
    (allowance_of_or_zero s from_ caller < value →
      (transfer_from s caller from_ to_ value).1 = false
      ∧ (transfer_from s caller from_ to_ value).2.1 = s)
    ∧ ((transfer_from s caller from_ to_ value).1 = true ↔
        value ≤ allowance_of_or_zero s from_ caller ∧ value ≤ balance_of_or_zero s from_)
    ∧ ((transfer_from s caller from_ to_ value).1 = true →
        allowance_of_or_zero (transfer_from s caller from_ to_ value).2.1 from_ caller + value
          = allowance_of_or_zero s from_ caller) := by
  refine ⟨?_, ?_, ?_⟩
  · intro h
    simp [transfer_from_allowance_lt s caller from_ to_ value h]
  · constructor
    · intro ht
      by_cases h1 : allowance_of_or_zero s from_ caller < value
      · rw [transfer_from_allowance_lt s caller from_ to_ value h1] at ht
        simp at ht
      · by_cases h2 : balance_of_or_zero s from_ < value
        · rw [transfer_from_balance_lt s caller from_ to_ value h1 h2] at ht
          simp at ht
        · omega
    · rintro ⟨ha, hb⟩
      rw [transfer_from_succ s caller from_ to_ value (by omega) (by omega)]
  · intro ht
    have h1 : ¬ allowance_of_or_zero s from_ caller < value := by
      intro h1
      rw [transfer_from_allowance_lt s caller from_ to_ value h1] at ht
      simp at ht
    have h2 : ¬ balance_of_or_zero s from_ < value := by
      intro h2
      rw [transfer_from_balance_lt s caller from_ to_ value h1 h2] at ht
      simp at ht
    rw [transfer_from_succ s caller from_ to_ value h1 h2]
    simp only [allowance_of_or_zero] at h1 ⊢
    rw [hmGetD_hmInsert_self]
    omega

/-- Witness for claim C3 on the scenario of the source tests: owner 1
approves spender 2 for 20; a delegated transfer of 30 fails unchanged, one
of 10 succeeds and consumes exactly 10 of the allowance. -/
theorem transfer_from_semantics_witness :
    ((transfer_from (approve (new 1 100).1 1 2 20).2.1 2 1 3 30).1 = false
      ∧ (transfer_from (approve (new 1 100).1 1 2 20).2.1 2 1 3 30).2.1
          = (approve (new 1 100).1 1 2 20).2.1)
    ∧ (transfer_from (approve (new 1 100).1 1 2 20).2.1 2 1 3 10).1 = true
    ∧ allowance_of_or_zero
        (transfer_from (approve (new 1 100).1 1 2 20).2.1 2 1 3 10).2.1 1 2 + 10
      = allowance_of_or_zero (approve (new 1 100).1 1 2 20).2.1 1 2 :=
  ⟨(transfer_from_semantics (approve (new 1 100).1 1 2 20).2.1 2 1 3 30).1 (by decide),
   (transfer_from_semantics (approve (new 1 100).1 1 2 20).2.1 2 1 3 10).2.1.mpr (by decide),
   (transfer_from_semantics (approve (new 1 100).1 1 2 20).2.1 2 1 3 10).2.2
     ((transfer_from_semantics (approve (new 1 100).1 1 2 20).2.1 2 1 3 10).2.1.mpr
       (by decide))⟩

/-! ## Claim C4: overflow policy -/

/-- Counterexample to claim C4 as stated: at the `u128`-typed storage state
with balances `{0 ↦ 2^128 - 1, 1 ↦ 5}`, transferring 5 from account 1 to
account 0 makes the recipient-side addition overflow, yet the operation is
not rejected: it returns `true` and the recipient's balance silently wraps
to 4. -/
theorem overflow_not_rejected :
    U128 ≤ balance_of_or_zero (Erc20.mk 100 [(0, U128 - 1), (1, 5)] []) 0 + 5
    ∧ (transfer (Erc20.mk 100 [(0, U128 - 1), (1, 5)] []) 1 0 5).1 = true
    ∧ balance_of_or_zero (transfer (Erc20.mk 100 [(0, U128 - 1), (1, 5)] []) 1 0 5).2.1 0
        = 4 := by
  decide

/-- Claim C4 as amended: the code has no overflow check (the recipient's
balance is stored modulo `2^128`), but from every reachable state the
recipient-side addition `to_balance + value` performed after the sender's
debit stays strictly below `2^128`, so the wrapping is the identity and no
reachable transfer ever overflows. -/
theorem no_reachable_overflow (s : Erc20) (h : Reachable s) (from_ to_ : AccountId)
    (value : Nat) (hv : value ≤ balance_of_or_zero s from_) :
    balance_of_or_zero
        { s with balances := hmInsert s.balances from_ (balance_of_or_zero s from_ - value) }
        to_ + value < U128 := by
  obtain ⟨hs, hu⟩ := reachable_inv s h
  have hb : hmGetD s.balances from_ ≤ hmSum s.balances := hmGetD_le_hmSum _ _
  have h1 := hmSum_hmInsert s.balances from_ (hmGetD s.balances from_ - value)
  have ht := hmGetD_le_hmSum (hmInsert s.balances from_ (hmGetD s.balances from_ - value)) to_
  simp only [balance_of_or_zero] at hv ⊢
  omega

/-- Witness for the amended claim C4 at the constructed state with supply
100. -/
theorem no_reachable_overflow_witness :
    balance_of_or_zero
        { (new 1 100).1 with balances :=
            (hmInsert (new 1 100).1.balances 1 (balance_of_or_zero (new 1 100).1 1 - 10)) }
        0 + 10 < U128 :=
  no_reachable_overflow (new 1 100).1 (Reachable.init 1 100 (by decide)) 1 0 10 (by decide)

/-! ## Claim C5: approve overwrites and always succeeds -/

/-- Claim C5: `approve` returns `true` and sets the `(caller, spender)`
allowance to exactly `value`, overwriting any prior allowance; in
particular two successive approvals leave the second value. -/
theorem approve_overwrites (s : Erc20) (caller spender : AccountId) (value prior : Nat) :
    (approve s caller spender value).1 = true
    ∧ allowance_of_or_zero (approve s caller spender value).2.1 caller spender = value
    ∧ allowance_of_or_zero
        (approve (approve s caller spender prior).2.1 caller spender value).2.1 caller spender
      = value := by
  refine ⟨rfl, ?_, ?_⟩ <;>
    simp [approve, allowance_of_or_zero, hmGetD_hmInsert_self]

/-! ## Claim C6: self-transfer neutrality -/

/-- Claim C6: a self-transfer of `value ≤ balance_of(caller)` on a
`u128`-typed state succeeds, leaves every balance unchanged, and still
emits the `Transfer` event. -/
theorem self_transfer_neutral (s : Erc20) (caller : AccountId) (value : Nat)
    (hwf : WF s) (hv : value ≤ balance_of_or_zero s caller) :
    (transfer s caller caller value).1 = true
    ∧ (∀ x, balance_of_or_zero (transfer s caller caller value).2.1 x
        = balance_of_or_zero s x)
    ∧ (transfer s caller caller value).2.2
        = [Event.Transfer (some caller) (some caller) value] := by
  have hb := wf_balance_lt s hwf caller
  have hlt : ¬ balance_of_or_zero s caller < value := by omega
  simp only [transfer]
  rw [tft_succ s caller caller value hlt]
  refine ⟨rfl, ?_, rfl⟩
  intro x
  simp only [balance_of_or_zero] at hv hb ⊢
  by_cases hx : x = caller
  · subst hx
    rw [hmGetD_hmInsert_self, hmGetD_hmInsert_self]
    rw [Nat.sub_add_cancel hv]
    exact Nat.mod_eq_of_lt hb
  · rw [hmGetD_hmInsert_ne _ _ _ _ hx, hmGetD_hmInsert_ne _ _ _ _ hx]

/-- Witness for claim C6: a self-transfer of 30 out of 100 changes
nothing and emits the event. -/
theorem self_transfer_neutral_witness :
    (transfer (new 1 100).1 1 1 30).1 = true
    ∧ balance_of_or_zero (transfer (new 1 100).1 1 1 30).2.1 1
        = balance_of_or_zero (new 1 100).1 1
    ∧ (transfer (new 1 100).1 1 1 30).2.2 = [Event.Transfer (some 1) (some 1) 30] := by
  have h := self_transfer_neutral (new 1 100).1 1 30
    (inv_wf (new 1 100).1 (inv_new 1 100 (by decide))) (by decide)
  exact ⟨h.1, h.2.1 1, h.2.2⟩

/-! ## Claim C7: zero defaults -/

/-- Claim C7: for an account (or pair) with no stored entry, `balance_of`
and `allowance` return 0; both are pure queries, so they have no side
effects and cannot fail by construction. -/
theorem zero_default (s : Erc20) (x y : AccountId)
    (hb : hmGet s.balances x = none)
    (ha : hmGet s.allowances (x, y) = none) :
    balance_of s x = 0 ∧ allowance s x y = 0 := by
  simp [balance_of, balance_of_or_zero, allowance, allowance_of_or_zero, hmGetD, hb, ha]

/-- Witness for claim C7: accounts 2 and 3 were never referenced after
construction by account 1. -/
theorem zero_default_witness :
    balance_of (new 1 100).1 2 = 0 ∧ allowance (new 1 100).1 2 3 = 0 :=
  zero_default (new 1 100).1 2 3 (by decide) (by decide)

/-! ## Claim C8: construction and total-supply invariance -/

/-- Claim C8: `new` sets `total_supply` and the caller's balance to the
initial supply, every other balance to 0, leaves the allowances empty and
emits the minting `Transfer` event; `total_supply` is a pure read of the
stored scalar, and no mutating operation ever changes it. -/
theorem construction_and_supply_invariance (s : Erc20)
    (caller x spender c2 from_ to_ : AccountId) (inital_supply value : Nat)
    (hx : x ≠ caller) :
    total_supply (new caller inital_supply).1 = inital_supply
    ∧ balance_of_or_zero (new caller inital_supply).1 caller = inital_supply
    ∧ balance_of_or_zero (new caller inital_supply).1 x = 0
    ∧ (new caller inital_supply).1.allowances = []
    ∧ (new caller inital_supply).2 = [Event.Transfer none (some caller) inital_supply]
    ∧ total_supply s = s.total_supply
    ∧ total_supply (approve s c2 spender value).2.1 = total_supply s
    ∧ total_supply (transfer s c2 to_ value).2.1 = total_supply s
    ∧ total_supply (transfer_from s c2 from_ to_ value).2.1 = total_supply s := by
  refine ⟨rfl, ?_, ?_, rfl, rfl, rfl, rfl, ?_, ?_⟩
  · simp [new, balance_of_or_zero, hmGetD_hmInsert_self]
  · simp [new, balance_of_or_zero, hmGetD, hmGet, hmInsert, Ne.symm hx]
  · exact ts_transfer s c2 to_ value
  · exact ts_transfer_from s c2 from_ to_ value

/-- Witness for claim C8 with caller 1, supply 100, bystander account 2
and a concrete mutating step on the constructed state. -/
theorem construction_and_supply_invariance_witness :
    balance_of_or_zero (new 1 100).1 2 = 0
    ∧ total_supply (transfer (new 1 100).1 1 0 10).2.1 = total_supply (new 1 100).1 :=
  ⟨(construction_and_supply_invariance (new 1 100).1 1 2 2 1 1 0 100 10 (by decide)).2.2.1,
   (construction_and_supply_invariance (new 1 100).1 1 2 2 1 1 0 100 10
     (by decide)).2.2.2.2.2.2.2.2⟩

/-! ## Claim C9: self-spending through transfer_from needs a self-allowance -/

/-- Claim C9 (implicit): with `from = caller`, `transfer_from` still runs
the allowance check on `(caller, caller)`, so for positive `value` it
returns `false` whenever that self-allowance is below `value`, even though
the plain `transfer` would succeed on the same balance. -/
theorem transfer_from_needs_self_allowance (s : Erc20) (caller to_ : AccountId)
    (value : Nat) (h0 : 0 < value)
    (hall : allowance_of_or_zero s caller caller < value) :
    (transfer_from s caller caller to_ value).1 = false
    ∧ (value ≤ balance_of_or_zero s caller → (transfer s caller to_ value).1 = true) := by
  constructor
  · simp [transfer_from_allowance_lt s caller caller to_ value hall]
  · intro hb
    simp only [transfer]
    exact (tft_fst_iff s caller to_ value).mpr hb

/-- Witness for claim C9: right after construction, account 1 holds 100
but has no self-allowance, so the delegated self-spend of 10 fails while
the direct transfer succeeds. -/
theorem transfer_from_needs_self_allowance_witness :
    (transfer_from (new 1 100).1 1 1 0 10).1 = false
    ∧ (transfer (new 1 100).1 1 0 10).1 = true :=
  ⟨(transfer_from_needs_self_allowance (new 1 100).1 1 0 10 (by decide) (by decide)).1,
   (transfer_from_needs_self_allowance (new 1 100).1 1 0 10 (by decide) (by decide)).2
     (by decide)⟩

/-! ## Claim C10: guarded subtractions never underflow -/

/-- Claim C10 (implicit): the balance subtraction in the transfer
primitive runs only after `from_balance ≥ value` has been checked, and the
allowance subtraction in `transfer_from` only after the allowance check
and the primitive's success; hence on every committing path the truncated
`Nat` subtraction is exact (no `u128` underflow is possible). -/
theorem guarded_subtractions (s : Erc20) (caller from_ to_ : AccountId) (value : Nat) :
    ((transfer_from_to s from_ to_ value).1 = true →
      value ≤ balance_of_or_zero s from_
      ∧ balance_of_or_zero s from_ - value + value = balance_of_or_zero s from_)
    ∧ ((transfer_from s caller from_ to_ value).1 = true →
      value ≤ allowance_of_or_zero s from_ caller
      ∧ allowance_of_or_zero s from_ caller - value + value
          = allowance_of_or_zero s from_ caller) := by
  constructor
  · intro ht
    have hg := (tft_fst_iff s from_ to_ value).mp ht
    exact ⟨hg, Nat.sub_add_cancel hg⟩
  · intro ht
    have h1 : ¬ allowance_of_or_zero s from_ caller < value := by
      intro h1
      rw [transfer_from_allowance_lt s caller from_ to_ value h1] at ht
      simp at ht
    exact ⟨by omega, Nat.sub_add_cancel (by omega)⟩

/-- Witness for claim C10 on a successful direct and delegated transfer
from the approved scenario state. -/
theorem guarded_subtractions_witness :
    (10 ≤ balance_of_or_zero (approve (new 1 100).1 1 2 20).2.1 1
      ∧ balance_of_or_zero (approve (new 1 100).1 1 2 20).2.1 1 - 10 + 10
          = balance_of_or_zero (approve (new 1 100).1 1 2 20).2.1 1)
    ∧ (10 ≤ allowance_of_or_zero (approve (new 1 100).1 1 2 20).2.1 1 2
      ∧ allowance_of_or_zero (approve (new 1 100).1 1 2 20).2.1 1 2 - 10 + 10
          = allowance_of_or_zero (approve (new 1 100).1 1 2 20).2.1 1 2) :=
  ⟨(guarded_subtractions (approve (new 1 100).1 1 2 20).2.1 2 1 0 10).1 (by decide),
   (guarded_subtractions (approve (new 1 100).1 1 2 20).2.1 2 1 0 10).2 (by decide)⟩

end Erc20Spec
